import Mathlib

/-
  Verification of the openapi-gateway core against its specification.

  The Python source (openapi_gateway.py) is shallowly embedded below:
  dictionaries become association lists (document order preserved, as in
  Python dicts), library calls (JSON parsing, JSON Schema validation,
  the OpenAPI meta-schema validator, the HTTP client) become explicit
  oracles or behaviour parameters, and raised exceptions become explicit
  result constructors. String splitting and lower-casing are embedded as
  character-list functions so that all definitions evaluate by kernel
  reduction.
-/

set_option maxHeartbeats 1000000

namespace OpenapiGateway

/-- Abstract JSON documents, used for the specification document, request
bodies and JSON Schemas. -/
inductive Json where
  | null : Json
  | bool : Bool → Json
  | num : Int → Json
  | str : String → Json
  | arr : List Json → Json
  | obj : List (String × Json) → Json

/-- The schema object of a query parameter; the code only inspects the
optional enum member, a list of allowed string values. Absence of the
field models absence of the enum key in the schema dictionary. -/
structure ParamSchema where
  enum : Option (List String)
deriving Repr, DecidableEq

/-- One entry of an operation parameters list. The required and schema
fields are Option because the corresponding dictionary keys may be absent
in a specification; the code accesses them with raw indexing, which raises
KeyError when the key is missing. -/
structure ParamSpec where
  inLoc : String
  name : String
  required : Option Bool
  schema : Option ParamSchema
deriving Repr, DecidableEq

/-- The value under one media type key of a requestBody content map; the
code reads its schema key with raw indexing. -/
structure MediaTypeSpec where
  schema : Option Json

/-- The requestBody object of an operation: a content map from media type
strings to media type objects, in document order. -/
structure RequestBodySpec where
  content : List (String × MediaTypeSpec)

/-- An operation object: optional parameters list and optional
requestBody, mirroring key presence in the operation dictionary. -/
structure Operation where
  parameters : Option (List ParamSpec)
  requestBody : Option RequestBodySpec

/-- A path item: mapping from lower-case HTTP method name to Operation,
in document order. -/
abbrev PathItem := List (String × Operation)

/-- The paths member of a specification: mapping from path template to
path item, in document order. -/
abbrev SpecPaths := List (String × PathItem)

/-- First-match association list lookup, the semantics of indexing a
Python dict whose keys are unique. -/
def dictLookup {α : Type} (d : List (String × α)) (k : String) : Option α :=
  (d.find? (fun p => p.1 == k)).map Prod.snd

/-- Membership test for a dict key, Python `k in d`. -/
def dictContains {α : Type} (d : List (String × α)) (k : String) : Bool :=
  (dictLookup d k).isSome

/-- Split a character list at every slash; the list of fragments is never
empty, matching the Python `str.split` result shape. -/
def splitOnSlash : List Char → List (List Char)
  | [] => [[]]
  | c :: rest =>
    match splitOnSlash rest, c == '/' with
    | segs, true => [] :: segs
    | [], false => [[c]]
    | s :: ss, false => (c :: s) :: ss

/-- Embedding of Python `path.split` on the slash separator. -/
def splitPath (s : String) : List String :=
  (splitOnSlash s.data).map (fun cs => String.mk cs)

/-- The left curly brace character. -/
def lbrace : Char := Char.ofNat 123

/-- The right curly brace character. -/
def rbrace : Char := Char.ofNat 125

/-- Whether the first character of a string is `c`; embedding of the
Python single-character `startswith` test. -/
def strFirstIs (s : String) (c : Char) : Bool :=
  s.data.head? == some c

/-- Whether the last character of a string is `c`; embedding of the
Python single-character `endswith` test. -/
def strLastIs (s : String) (c : Char) : Bool :=
  s.data.getLast? == some c

/-- ASCII lower-casing of one character. -/
def lowerChar (c : Char) : Char :=
  if c.toNat ≥ 65 && c.toNat ≤ 90 then Char.ofNat (c.toNat + 32) else c

/-- Embedding of Python `str.lower` (the methods and header names the
gateway lower-cases are ASCII). -/
def strLower (s : String) : String :=
  String.mk (s.data.map lowerChar)

/-- One segment comparison of find_operation: a template segment that
starts with a left brace and ends with a right brace is a wildcard,
any other template segment must equal the request segment exactly. -/
def segMatches (part template : String) : Bool :=
  if strFirstIs template lbrace && strLastIs template rbrace then true
  else part == template

/-- The per-template test of find_operation: equal segment counts and
all segments matching. -/
def templateMatches (path template : String) : Bool :=
  let pathParts := splitPath path
  let templateParts := splitPath template
  pathParts.length == templateParts.length &&
    (pathParts.zip templateParts).all (fun pt => segMatches pt.1 pt.2)

/-- Whether a path-item entry is selected by find_operation for a given
path and method: its template matches and it declares the lower-cased
method. -/
def entryMatches (path method : String) (e : String × PathItem) : Bool :=
  templateMatches path e.1 && (dictLookup e.2 (strLower method)).isSome

/-- Embedding of find_operation: walk the path templates in document
order, skip templates whose segment count differs, compare the remaining
ones segment by segment with brace-delimited segments as wildcards, and
return the operation of the first template that matches and declares the
lower-cased method; none when no template does. -/
def find_operation (path method : String) : SpecPaths → Option Operation
  | [] => none
  | (template, item) :: rest =>
    if templateMatches path template then
      match dictLookup item (strLower method) with
      | some op => some op
      | none => find_operation path method rest
    else find_operation path method rest

theorem find_operation_some_iff (path method : String) (entries : SpecPaths) (op : Operation) :
    find_operation path method entries = some op ↔
      ∃ pre e post, entries = pre ++ e :: post ∧
        (∀ e2 ∈ pre, entryMatches path method e2 = false) ∧
        templateMatches path e.1 = true ∧
        dictLookup e.2 (strLower method) = some op := by
  induction entries with
  | nil =>
    simp only [find_operation]
    constructor
    · intro h; cases h
    · rintro ⟨pre, e, post, heq, -⟩
      cases pre <;> simp at heq
  | cons hd rest ih =>
    obtain ⟨tmpl, item⟩ := hd
    by_cases htm : templateMatches path tmpl = true
    · cases hl : dictLookup item (strLower method) with
      | some op1 =>
        have hfo : find_operation path method ((tmpl, item) :: rest) = some op1 := by
          simp [find_operation, htm, hl]
        rw [hfo]
        constructor
        · intro h
          injection h with h
          subst h
          exact ⟨[], (tmpl, item), rest, rfl,
            fun e2 he2 => absurd he2 (List.not_mem_nil e2), htm, hl⟩
        · rintro ⟨pre, e, post, heq, hpre, hm, hlk⟩
          cases pre with
          | nil =>
            simp only [List.nil_append] at heq
            injection heq with h1 h2
            have hlk2 : dictLookup item (strLower method) = some op := by
              rw [← h1] at hlk; exact hlk
            exact hl.symm.trans hlk2
          | cons p pre1 =>
            simp only [List.cons_append] at heq
            injection heq with h1 h2
            have hem : entryMatches path method (tmpl, item) = true := by
              simp [entryMatches, htm, hl]
            have hp := hpre p (List.mem_cons_self p pre1)
            rw [h1] at hem
            rw [hp] at hem
            cases hem
      | none =>
        have hfo : find_operation path method ((tmpl, item) :: rest) =
            find_operation path method rest := by
          simp [find_operation, htm, hl]
        rw [hfo, ih]
        constructor
        · rintro ⟨pre, e, post, heq, hpre, hm, hlk⟩
          refine ⟨(tmpl, item) :: pre, e, post, by rw [heq]; rfl, ?_, hm, hlk⟩
          intro e2 he2
          rcases List.mem_cons.mp he2 with h | h
          · subst h; simp [entryMatches, hl]
          · exact hpre e2 h
        · rintro ⟨pre, e, post, heq, hpre, hm, hlk⟩
          cases pre with
          | nil =>
            simp only [List.nil_append] at heq
            injection heq with h1 h2
            have hlk2 : dictLookup item (strLower method) = some op := by
              rw [← h1] at hlk; exact hlk
            rw [hl] at hlk2
            cases hlk2
          | cons p pre1 =>
            simp only [List.cons_append] at heq
            injection heq with h1 h2
            exact ⟨pre1, e, post, h2,
              fun e2 he2 => hpre e2 (List.mem_cons_of_mem _ he2), hm, hlk⟩
    · have htm2 : templateMatches path tmpl = false := by
        cases h : templateMatches path tmpl
        · rfl
        · exact absurd h htm
      have hfo : find_operation path method ((tmpl, item) :: rest) =
          find_operation path method rest := by
        simp [find_operation, htm2]
      rw [hfo, ih]
      constructor
      · rintro ⟨pre, e, post, heq, hpre, hm, hlk⟩
        refine ⟨(tmpl, item) :: pre, e, post, by rw [heq]; rfl, ?_, hm, hlk⟩
        intro e2 he2
        rcases List.mem_cons.mp he2 with h | h
        · subst h; simp [entryMatches, htm2]
        · exact hpre e2 h
      · rintro ⟨pre, e, post, heq, hpre, hm, hlk⟩
        cases pre with
        | nil =>
          simp only [List.nil_append] at heq
          injection heq with h1 h2
          have hm2 : templateMatches path tmpl = true := by
            rw [← h1] at hm; exact hm
          rw [htm2] at hm2
          cases hm2
        | cons p pre1 =>
          simp only [List.cons_append] at heq
          injection heq with h1 h2
          exact ⟨pre1, e, post, h2,
            fun e2 he2 => hpre e2 (List.mem_cons_of_mem _ he2), hm, hlk⟩

theorem find_operation_none_iff (path method : String) (entries : SpecPaths) :
    find_operation path method entries = none ↔
      ∀ e ∈ entries, entryMatches path method e = false := by
  induction entries with
  | nil => simp [find_operation]
  | cons hd rest ih =>
    obtain ⟨tmpl, item⟩ := hd
    by_cases htm : templateMatches path tmpl = true
    · cases hl : dictLookup item (strLower method) with
      | some op1 =>
        simp only [find_operation, htm, if_true, hl]
        constructor
        · intro h; cases h
        · intro h
          have hem := h (tmpl, item) (List.mem_cons_self (tmpl, item) rest)
          simp [entryMatches, htm, hl] at hem
      | none =>
        simp only [find_operation, htm, if_true, hl]
        rw [ih]
        constructor
        · intro h e he
          rcases List.mem_cons.mp he with h1 | h1
          · subst h1; simp [entryMatches, hl]
          · exact h e h1
        · intro h e he
          exact h e (List.mem_cons_of_mem _ he)
    · have htm2 : templateMatches path tmpl = false := by
        cases h : templateMatches path tmpl
        · rfl
        · exact absurd h htm
      simp only [find_operation, htm2, Bool.false_eq_true, if_false]
      rw [ih]
      constructor
      · intro h e he
        rcases List.mem_cons.mp he with h1 | h1
        · subst h1; simp [entryMatches, htm2]
        · exact h e h1
      · intro h e he
        exact h e (List.mem_cons_of_mem _ he)

theorem segMatches_iff (part t : String) :
    segMatches part t = true ↔
      (strFirstIs t lbrace = true ∧ strLastIs t rbrace = true) ∨ part = t := by
  rcases h1 : strFirstIs t lbrace <;> rcases h2 : strLastIs t rbrace <;>
    simp [segMatches, h1, h2]

theorem templateMatches_iff (p t : String) :
    templateMatches p t = true ↔
      (splitPath p).length = (splitPath t).length ∧
        ∀ pr ∈ (splitPath p).zip (splitPath t), segMatches pr.1 pr.2 = true := by
  simp [templateMatches, List.all_eq_true]

/-- Claim C1: find_operation splits the request path into slash-delimited
segments, walks the templates in document order, skips templates whose
segment count differs, treats brace-delimited template segments as
wildcards and all other segments as exact-equality literals, and returns
the operation of the first matching template whose path item declares the
lower-cased method, or none when no template matches; in particular the
template for items with an id placeholder matches the paths for item 42
and item abc but not the three-segment extra path. -/
theorem c1_find_operation_matching (path method : String) (entries : SpecPaths) :
    (∀ op, find_operation path method entries = some op ↔
       ∃ pre e post, entries = pre ++ e :: post ∧
         (∀ e2 ∈ pre, entryMatches path method e2 = false) ∧
         templateMatches path e.1 = true ∧
         dictLookup e.2 (strLower method) = some op) ∧
    (find_operation path method entries = none ↔
       ∀ e ∈ entries, entryMatches path method e = false) ∧
    (∀ part t, segMatches part t = true ↔
       (strFirstIs t lbrace = true ∧ strLastIs t rbrace = true) ∨ part = t) ∧
    (∀ p t, templateMatches p t = true ↔
       (splitPath p).length = (splitPath t).length ∧
         ∀ pr ∈ (splitPath p).zip (splitPath t), segMatches pr.1 pr.2 = true) ∧
    templateMatches "/items/42" "/items/{id}" = true ∧
    templateMatches "/items/abc" "/items/{id}" = true ∧
    templateMatches "/items/42/extra" "/items/{id}" = false :=
  ⟨fun op => find_operation_some_iff path method entries op,
   find_operation_none_iff path method entries,
   segMatches_iff, templateMatches_iff,
   by decide, by decide, by decide⟩

/-- Witness for claim C1 at a concrete input: the template with the id
placeholder routes a GET for item 42 to its operation. -/
theorem c1_find_operation_matching_witness :
    find_operation "/items/42" "GET"
        [("/items/{id}", [("get", (⟨none, none⟩ : Operation))])] =
      some ⟨none, none⟩ :=
  ((c1_find_operation_matching "/items/42" "GET"
      [("/items/{id}", [("get", ⟨none, none⟩)])]).1 ⟨none, none⟩).mpr
    ⟨[], ("/items/{id}", [("get", ⟨none, none⟩)]), [], rfl,
      fun e2 he2 => absurd he2 (List.not_mem_nil e2), by decide, rfl⟩

/-- Result of running one Python handler body: normal return, a raised
HTTPException with status code and detail, or an uncaught KeyError on a
missing dictionary key. -/
inductive PyResult (α : Type) where
  | ok : α → PyResult α
  | httpError : Nat → String → PyResult α
  | keyError : String → PyResult α
deriving Repr, DecidableEq

/-- The query parameter dict of a request. -/
abbrev QueryParams := List (String × String)

/-- Embedding of Python string join over a comma-space separator. -/
def joinSep (sep : String) : List String → String
  | [] => ""
  | [x] => x
  | x :: xs => x ++ sep ++ joinSep sep xs

/-- The 400 detail for an absent required query parameter. -/
def missingParamMsg (name : String) : String :=
  "Missing required query parameter: " ++ name

/-- The 400 detail for a query value outside the declared enum. -/
def invalidValueMsg (name : String) (vals : List String) : String :=
  "Invalid value for " ++ name ++ ". Must be one of: " ++ joinSep ", " vals

/-- The body of the parameter loop of validate_parameters for one
declared parameter: ok means the loop falls through to the next
parameter, any other result is the raise that aborts the handler. -/
def paramStep (queryParams : QueryParams) (p : ParamSpec) : PyResult Unit :=
  if p.inLoc == "query" then
    match p.required with
    | none => .keyError "required"
    | some req =>
      match dictLookup queryParams p.name with
      | none =>
        if req then .httpError 400 (missingParamMsg p.name)
        else .ok ()
      | some v =>
        match p.schema with
        | none => .keyError "schema"
        | some sch =>
          match sch.enum with
          | none => .ok ()
          | some vals =>
            match vals.contains v with
            | true => .ok ()
            | false => .httpError 400 (invalidValueMsg p.name vals)
  else .ok ()

/-- The parameter loop of validate_parameters: run the body on each
declared parameter in order; the first raise aborts the loop. -/
def validateParamList (queryParams : QueryParams) : List ParamSpec → PyResult Unit
  | [] => .ok ()
  | p :: rest =>
    match paramStep queryParams p with
    | .ok _ => validateParamList queryParams rest
    | r => r

/-- Embedding of validate_parameters: nothing to check when the
operation has no parameters key, otherwise run the loop. -/
def validate_parameters (queryParams : QueryParams) (operation : Operation) :
    PyResult Unit :=
  match operation.parameters with
  | none => .ok ()
  | some ps => validateParamList queryParams ps

/-- The per-parameter requirement the specification states: a required
parameter is present, and a present value with a declared enum is a
member of it. -/
def paramPasses (queryParams : QueryParams) (p : ParamSpec) : Bool :=
  (match p.required with
   | some true => dictContains queryParams p.name
   | _ => true) &&
  (match dictLookup queryParams p.name, p.schema with
   | some v, some sch =>
     match sch.enum with
     | some vals => vals.contains v
     | _ => true
   | _, _ => true)

theorem validateParamList_ok_iff (qp : QueryParams) (ps : List ParamSpec) :
    validateParamList qp ps = .ok () ↔ ∀ p ∈ ps, paramStep qp p = .ok () := by
  induction ps with
  | nil => simp [validateParamList]
  | cons p rest ih =>
    simp only [validateParamList]
    cases h : paramStep qp p with
    | ok a =>
      cases a
      simp [ih, h]
    | httpError s d => simp [h]
    | keyError k => simp [h]

theorem validateParamList_error_mem (qp : QueryParams) (ps : List ParamSpec)
    (r : PyResult Unit) (hne : ∀ a, r ≠ .ok a)
    (h : validateParamList qp ps = r) :
    ∃ p ∈ ps, paramStep qp p = r := by
  induction ps with
  | nil =>
    rw [validateParamList] at h
    exact absurd h.symm (hne ())
  | cons p rest ih =>
    rw [validateParamList] at h
    cases hs : paramStep qp p with
    | ok a =>
      cases a
      rw [hs] at h
      obtain ⟨q, hq, hr⟩ := ih h
      exact ⟨q, List.mem_cons_of_mem _ hq, hr⟩
    | httpError s d =>
      rw [hs] at h
      exact ⟨p, List.mem_cons_self p rest, hs.trans h⟩
    | keyError k =>
      rw [hs] at h
      exact ⟨p, List.mem_cons_self p rest, hs.trans h⟩

theorem paramStep_ok_iff (qp : QueryParams) (p : ParamSpec)
    (hq : p.inLoc = "query") (req : Bool) (sch : ParamSchema)
    (hreq : p.required = some req) (hsch : p.schema = some sch) :
    paramStep qp p = .ok () ↔ paramPasses qp p = true := by
  have hq2 : (p.inLoc == "query") = true := by simp [hq]
  cases hlk : dictLookup qp p.name with
  | none =>
    cases req with
    | false => simp [paramStep, paramPasses, hq2, hreq, hsch, hlk]
    | true => simp [paramStep, paramPasses, hq2, hreq, hsch, hlk, dictContains]
  | some v =>
    cases req with
    | false =>
      cases henum : sch.enum with
      | none => simp [paramStep, paramPasses, hq2, hreq, hsch, hlk, henum]
      | some vals =>
        by_cases hm : v ∈ vals <;>
          simp [paramStep, paramPasses, hq2, hreq, hsch, hlk, henum, hm]
    | true =>
      cases henum : sch.enum with
      | none =>
        simp [paramStep, paramPasses, hq2, hreq, hsch, hlk, henum, dictContains]
      | some vals =>
        by_cases hm : v ∈ vals <;>
          simp [paramStep, paramPasses, hq2, hreq, hsch, hlk, henum, hm,
            dictContains]

theorem paramStep_no_keyError (qp : QueryParams) (p : ParamSpec)
    (req : Bool) (sch : ParamSchema)
    (hreq : p.required = some req) (hsch : p.schema = some sch)
    (k : String) : paramStep qp p ≠ .keyError k := by
  intro h
  unfold paramStep at h
  by_cases hq2 : (p.inLoc == "query") = true
  · rw [if_pos hq2] at h
    simp only [hreq] at h
    cases hlk : dictLookup qp p.name with
    | none =>
      simp only [hlk] at h
      cases req <;> simp at h
    | some v =>
      simp only [hlk, hsch] at h
      cases henum : sch.enum with
      | none => simp [henum] at h
      | some vals =>
        simp only [henum] at h
        by_cases hm : v ∈ vals <;> simp [hm] at h
  · rw [if_neg hq2] at h
    cases h

theorem paramStep_httpError (qp : QueryParams) (p : ParamSpec) (s : Nat)
    (d : String) (h : paramStep qp p = .httpError s d) :
    s = 400 ∧ p.inLoc = "query" ∧
      ((p.required = some true ∧ dictLookup qp p.name = none ∧
          d = missingParamMsg p.name) ∨
       (∃ v sch vals, dictLookup qp p.name = some v ∧ p.schema = some sch ∧
          sch.enum = some vals ∧ vals.contains v = false ∧
          d = invalidValueMsg p.name vals)) := by
  unfold paramStep at h
  by_cases hq2 : (p.inLoc == "query") = true
  · have hq : p.inLoc = "query" := by simpa using hq2
    rw [if_pos hq2] at h
    cases hreq : p.required with
    | none => simp [hreq] at h
    | some req =>
      simp only [hreq] at h
      cases hlk : dictLookup qp p.name with
      | none =>
        simp only [hlk] at h
        cases req with
        | false => simp at h
        | true =>
          simp only [if_true] at h
          injection h with h1 h2
          exact ⟨h1.symm, hq, Or.inl ⟨rfl, rfl, h2.symm⟩⟩
      | some v =>
        simp only [hlk] at h
        cases hsch : p.schema with
        | none => simp [hsch] at h
        | some sch =>
          simp only [hsch] at h
          cases henum : sch.enum with
          | none => simp [henum] at h
          | some vals =>
            simp only [henum] at h
            by_cases hm : v ∈ vals
            · simp [hm] at h
            · have hc : vals.contains v = false := by simpa using hm
              simp [hm] at h
              obtain ⟨h1, h2⟩ := h
              exact ⟨h1.symm, hq,
                Or.inr ⟨v, sch, vals, rfl, rfl, henum, hc, h2.symm⟩⟩
  · rw [if_neg hq2] at h
    cases h

/-- Claim C2: for a well-formed declared parameter list (every
query-location entry carries its required flag and its schema),
validate_parameters succeeds exactly when every query-location parameter
passes (required implies present; a present value with a declared enum is
a member), every failure is an HTTPException with status 400 whose detail
names the violated parameter, a raised KeyError is impossible, and a
violated query parameter forces a 400 failure. -/
theorem c2_validate_parameters (qp : QueryParams) (op : Operation)
    (hwf : ∀ ps, op.parameters = some ps → ∀ p ∈ ps, p.inLoc = "query" →
      (∃ req, p.required = some req) ∧ (∃ sch, p.schema = some sch)) :
    (validate_parameters qp op = .ok () ↔
      ∀ ps, op.parameters = some ps → ∀ p ∈ ps, p.inLoc = "query" →
        paramPasses qp p = true) ∧
    (∀ s d, validate_parameters qp op = .httpError s d → s = 400 ∧
      ∃ ps, op.parameters = some ps ∧ ∃ p ∈ ps, p.inLoc = "query" ∧
        ((p.required = some true ∧ dictLookup qp p.name = none ∧
            d = missingParamMsg p.name) ∨
         (∃ v sch vals, dictLookup qp p.name = some v ∧ p.schema = some sch ∧
            sch.enum = some vals ∧ vals.contains v = false ∧
            d = invalidValueMsg p.name vals))) ∧
    (∀ k, validate_parameters qp op ≠ .keyError k) ∧
    (∀ ps p, op.parameters = some ps → p ∈ ps → p.inLoc = "query" →
      paramPasses qp p = false →
      ∃ d, validate_parameters qp op = .httpError 400 d) := by
  cases hps : op.parameters with
  | none =>
    refine ⟨?_, ?_, ?_, ?_⟩
    · simp [validate_parameters, hps]
    · intro s d hcontra
      simp [validate_parameters, hps] at hcontra
    · intro k hcontra
      simp [validate_parameters, hps] at hcontra
    · intro ps p hcontra
      cases hcontra
  | some ps =>
    rw [← hps]
    have hwf2 := hwf ps hps
    have hval : validate_parameters qp op = validateParamList qp ps := by
      rw [validate_parameters, hps]
    have hok : validate_parameters qp op = .ok () ↔
        ∀ ps2, op.parameters = some ps2 → ∀ p ∈ ps2, p.inLoc = "query" →
          paramPasses qp p = true := by
      rw [hval, validateParamList_ok_iff]
      constructor
      · intro hall ps2 hps2 p hp hquery
        have heq : ps2 = ps := by
          rw [hps] at hps2
          exact (Option.some.inj hps2).symm
        subst heq
        obtain ⟨⟨req, hreq⟩, ⟨sch, hsch⟩⟩ := hwf2 p hp hquery
        exact (paramStep_ok_iff qp p hquery req sch hreq hsch).mp (hall p hp)
      · intro hall p hp
        by_cases hquery : p.inLoc = "query"
        · obtain ⟨⟨req, hreq⟩, ⟨sch, hsch⟩⟩ := hwf2 p hp hquery
          exact (paramStep_ok_iff qp p hquery req sch hreq hsch).mpr
            (hall ps hps p hp hquery)
        · have hq2 : (p.inLoc == "query") = false := by
            simpa using hquery
          simp [paramStep, hq2]
    have herr : ∀ s d, validate_parameters qp op = .httpError s d →
        s = 400 ∧ ∃ ps2, op.parameters = some ps2 ∧
          ∃ p ∈ ps2, p.inLoc = "query" ∧
            ((p.required = some true ∧ dictLookup qp p.name = none ∧
                d = missingParamMsg p.name) ∨
             (∃ v sch vals, dictLookup qp p.name = some v ∧
                p.schema = some sch ∧ sch.enum = some vals ∧
                vals.contains v = false ∧
                d = invalidValueMsg p.name vals)) := by
      intro s d h
      rw [hval] at h
      obtain ⟨p, hp, hstep⟩ :=
        validateParamList_error_mem qp ps _ (fun a => by simp) h
      obtain ⟨h400, hquery, hdesc⟩ := paramStep_httpError qp p s d hstep
      exact ⟨h400, ps, hps, p, hp, hquery, hdesc⟩
    have hkey : ∀ k, validate_parameters qp op ≠ .keyError k := by
      intro k h
      rw [hval] at h
      obtain ⟨p, hp, hstep⟩ :=
        validateParamList_error_mem qp ps _ (fun a => by simp) h
      by_cases hquery : p.inLoc = "query"
      · obtain ⟨⟨req, hreq⟩, ⟨sch, hsch⟩⟩ := hwf2 p hp hquery
        exact paramStep_no_keyError qp p req sch hreq hsch k hstep
      · have hq2 : (p.inLoc == "query") = false := by simpa using hquery
        simp [paramStep, hq2] at hstep
    refine ⟨hok, herr, hkey, ?_⟩
    intro ps2 p hps2 hp hquery hfail
    have heq : ps2 = ps := by
      rw [hps] at hps2
      exact (Option.some.inj hps2).symm
    subst heq
    cases hres : validate_parameters qp op with
    | ok a =>
      cases a
      have hpass := hok.mp hres ps2 hps p hp hquery
      rw [hfail] at hpass
      cases hpass
    | httpError s d =>
      obtain ⟨h400, -⟩ := herr s d hres
      exact ⟨d, by rw [h400]⟩
    | keyError k => exact absurd hres (hkey k)

/-- The operation used to instantiate claim C2: one required query
parameter named status whose schema declares an enum of a and b. -/
def c2SampleOp : Operation :=
  ⟨some [⟨"query", "status", some true, some ⟨some ["a", "b"]⟩⟩], none⟩

/-- Witness for claim C2 at a concrete request: the well-formedness
hypothesis holds for the sample operation and a request supplying the
allowed value a passes validation. -/
theorem c2_validate_parameters_witness :
    validate_parameters [("status", "a")] c2SampleOp = .ok () := by
  have hwf : ∀ ps, c2SampleOp.parameters = some ps → ∀ p ∈ ps,
      p.inLoc = "query" →
      (∃ req, p.required = some req) ∧ (∃ sch, p.schema = some sch) := by
    intro ps hps p hp hquery
    injection hps with h
    subst h
    have hpeq := List.mem_singleton.mp hp
    subst hpeq
    exact ⟨⟨true, rfl⟩, ⟨⟨some ["a", "b"]⟩, rfl⟩⟩
  apply (c2_validate_parameters [("status", "a")] c2SampleOp hwf).1.mpr
  intro ps hps p hp hquery
  injection hps with h
  subst h
  have hpeq := List.mem_singleton.mp hp
  subst hpeq
  decide

/-- Claim C10: validate_parameters is partial on specifications whose
query parameters omit the required or schema keys: a query parameter
without a required key makes it raise KeyError even on an empty request,
and a non-required query parameter without a schema key makes it raise
KeyError when the parameter is supplied. -/
theorem c10_validate_parameters_keyerror :
    validate_parameters []
        ⟨some [⟨"query", "limit", none, none⟩], none⟩ = .keyError "required" ∧
    validate_parameters [("limit", "5")]
        ⟨some [⟨"query", "limit", some false, none⟩], none⟩ =
      .keyError "schema" :=
  ⟨rfl, rfl⟩

/-- A request as the registered handler observes it: method, path and
query string from the URL, the parsed query parameter dict, the header
mapping, and the raw body bytes. -/
structure IncomingRequest where
  method : String
  path : String
  queryString : String
  queryParams : QueryParams
  headers : List (String × String)
  body : List Nat

/-- Case-insensitive header lookup, the semantics of the transport
layer header mapping. -/
def headersGetCI (hs : List (String × String)) (k : String) : Option String :=
  (hs.find? (fun p => strLower p.1 == strLower k)).map Prod.snd

/-- The 415 detail for a body whose content type is not JSON. -/
def unsupportedMediaTypeMsg : String :=
  "Unsupported Media Type. Expected \x27application/json\x27"

/-- The 400 detail for a body that does not parse as JSON. -/
def invalidJsonMsg : String := "Invalid JSON body"

/-- The 400 detail for a parsed body rejected by the JSON Schema
validator, carrying the validator diagnostic. -/
def invalidBodyMsg (m : String) : String := "Invalid request body: " ++ m

/-- The methods for which a request body is validated. -/
def bodyMethods : List String := ["POST", "PUT", "PATCH"]

/-- Embedding of validate_request_body. The JSON parser and the JSON
Schema validator are library calls, embedded as oracle parameters:
parseJson returns none on a decode failure, schemaCheck returns the
diagnostic message of the raised validation error or none on success.
The checks run only for POST, PUT and PATCH requests whose operation
declares a requestBody with an application/json media type; the content
type header must then literally equal application/json (415 otherwise),
the body must parse (400 otherwise) and must satisfy the declared schema
(400 with the diagnostic otherwise). -/
def validate_request_body (parseJson : List Nat → Option Json)
    (schemaCheck : Json → Json → Option String)
    (req : IncomingRequest) (operation : Operation) : PyResult Unit :=
  let contentType := headersGetCI req.headers "content-type"
  if bodyMethods.contains req.method then
    match operation.requestBody with
    | none => .ok ()
    | some rbs =>
      match dictLookup rbs.content "application/json" with
      | none => .ok ()
      | some mt =>
        if contentType == some "application/json" then
          match parseJson req.body with
          | none => .httpError 400 invalidJsonMsg
          | some bodyJson =>
            match mt.schema with
            | none => .keyError "schema"
            | some sch =>
              match schemaCheck bodyJson sch with
              | none => .ok ()
              | some msg => .httpError 400 (invalidBodyMsg msg)
        else .httpError 415 unsupportedMediaTypeMsg
  else .ok ()

/-- Claim C3: for POST, PUT or PATCH requests whose operation declares a
requestBody with an application/json media type entry, body validation
yields 415 when the content type header is not literally
application/json, else 400 when the body does not parse as JSON, else
400 with the validator diagnostic when the parsed body violates the
declared schema, else success; for any other method, or without such a
declared body, it always succeeds. -/
theorem c3_validate_request_body (parseJson : List Nat → Option Json)
    (schemaCheck : Json → Json → Option String)
    (req : IncomingRequest) (op : Operation) :
    (req.method ∉ bodyMethods →
      validate_request_body parseJson schemaCheck req op = .ok ()) ∧
    (op.requestBody = none →
      validate_request_body parseJson schemaCheck req op = .ok ()) ∧
    (∀ rbs, op.requestBody = some rbs →
      dictLookup rbs.content "application/json" = none →
      validate_request_body parseJson schemaCheck req op = .ok ()) ∧
    (∀ rbs mt, req.method ∈ bodyMethods → op.requestBody = some rbs →
      dictLookup rbs.content "application/json" = some mt →
      ((headersGetCI req.headers "content-type" ≠ some "application/json" →
          validate_request_body parseJson schemaCheck req op =
            .httpError 415 unsupportedMediaTypeMsg) ∧
       (headersGetCI req.headers "content-type" = some "application/json" →
         (parseJson req.body = none →
            validate_request_body parseJson schemaCheck req op =
              .httpError 400 invalidJsonMsg) ∧
         (∀ j sch, parseJson req.body = some j → mt.schema = some sch →
           (∀ m, schemaCheck j sch = some m →
              validate_request_body parseJson schemaCheck req op =
                .httpError 400 (invalidBodyMsg m)) ∧
           (schemaCheck j sch = none →
              validate_request_body parseJson schemaCheck req op =
                .ok ()))))) := by
  refine ⟨?_, ?_, ?_, ?_⟩
  · intro hm
    simp [validate_request_body, hm]
  · intro hrb
    by_cases hm : req.method ∈ bodyMethods <;>
      simp [validate_request_body, hm, hrb]
  · intro rbs hrb hmt
    by_cases hm : req.method ∈ bodyMethods <;>
      simp [validate_request_body, hm, hrb, hmt]
  · intro rbs mt hm hrb hmt
    refine ⟨?_, ?_⟩
    · intro hct
      have hct2 : (headersGetCI req.headers "content-type" ==
          some "application/json") = false := beq_eq_false_iff_ne.mpr hct
      simp [validate_request_body, hm, hrb, hmt, hct2]
    · intro hct
      refine ⟨?_, ?_⟩
      · intro hp
        simp [validate_request_body, hm, hrb, hmt, hct, hp]
      · intro j sch hp hsch
        refine ⟨?_, ?_⟩
        · intro m hchk
          simp [validate_request_body, hm, hrb, hmt, hct, hp, hsch, hchk]
        · intro hchk
          simp [validate_request_body, hm, hrb, hmt, hct, hp, hsch, hchk]

/-- Witness for claim C3 at a concrete input: a GET request is exempt
from body validation. -/
theorem c3_validate_request_body_witness :
    validate_request_body (fun _ => none) (fun _ _ => none)
      ⟨"GET", "/items", "", [], [], []⟩ ⟨none, none⟩ = .ok () :=
  (c3_validate_request_body (fun _ => none) (fun _ _ => none)
    ⟨"GET", "/items", "", [], [], []⟩ ⟨none, none⟩).1 (by decide)

/-- The process environment. -/
abbrev Env := List (String × String)

/-- Embedding of os.getenv with a default value. -/
def os_getenv (env : Env) (k d : String) : String :=
  match dictLookup env k with
  | some v => v
  | none => d

/-- The default upstream base URL. -/
def defaultUpstreamUrl : String := "https://example.com/api"

/-- The upstream base URL forward_request resolves per call. -/
def upstreamBaseUrl (env : Env) : String :=
  os_getenv env "UPSTREAM_SERVER_URL" defaultUpstreamUrl

/-- The outbound URL of forward_request: base plus request path, plus a
question mark and the query string when one is present. -/
def buildFullUrl (base : String) (req : IncomingRequest) : String :=
  let u := base ++ req.path
  if req.queryString == "" then u else u ++ "?" ++ req.queryString

/-- The outbound headers of forward_request: every inbound header whose
lower-cased key is not host. -/
def outboundHeaders (req : IncomingRequest) : List (String × String) :=
  req.headers.filter (fun p => !(strLower p.1 == "host"))

/-- The upstream call forward_request issues. -/
structure OutboundRequest where
  method : String
  url : String
  headers : List (String × String)
  body : List Nat
  timeoutSeconds : Nat
  followRedirects : Bool
deriving Repr, DecidableEq

/-- Embedding of the outbound request construction in forward_request:
original method and body, rebuilt URL, filtered headers, a 30 second
timeout and redirect following. -/
def build_outbound (env : Env) (req : IncomingRequest) : OutboundRequest :=
  ⟨req.method, buildFullUrl (upstreamBaseUrl env) req, outboundHeaders req,
   req.body, 30, true⟩

/-- What the upstream does with one outbound request: a received
response, or one of the transport failures the code distinguishes. -/
inductive UpstreamBehavior where
  | responds : Nat → List (String × String) → List Nat → UpstreamBehavior
  | timeout : UpstreamBehavior
  | connectError : UpstreamBehavior
  | otherError : String → UpstreamBehavior

/-- The header names filter_headers strips. -/
def excludedHeaders : List String :=
  ["server", "transfer-encoding", "content-encoding", "content-length"]

/-- Embedding of filter_headers: keep the entries whose lower-cased key
is not excluded. -/
def filter_headers (headers : List (String × String)) :
    List (String × String) :=
  headers.filter (fun p => !(excludedHeaders.contains (strLower p.1)))

/-- Python dict assignment: replace the entry carrying exactly this key
in place, or append a new entry. -/
def dictSet (d : List (String × String)) (k v : String) :
    List (String × String) :=
  if (d.find? (fun p => p.1 == k)).isSome then
    d.map (fun p => if p.1 == k then (k, v) else p)
  else d ++ [(k, v)]

/-- The response header handling of forward_request: filter the upstream
headers, then re-insert the content type (looked up case-insensitively
in the transport header mapping) under the literal lower-case key. -/
def sanitizeHeaders (headers : List (String × String)) :
    List (String × String) :=
  let cleaned := filter_headers headers
  match headersGetCI headers "content-type" with
  | none => cleaned
  | some v => dictSet cleaned "content-type" v

/-- A response the gateway returns: status, headers, body. -/
structure GatewayResponse where
  status : Nat
  headers : List (String × String)
  body : List Nat
deriving Repr, DecidableEq

/-- Result of forward_request: a relayed response or a raised
HTTPException. -/
inductive ForwardResult where
  | response : GatewayResponse → ForwardResult
  | httpError : Nat → String → ForwardResult
deriving Repr, DecidableEq

/-- The 504 detail on an upstream timeout. -/
def timeoutMsg : String :=
  "Gateway Timeout - Upstream service took too long to respond"

/-- The 504 detail on an upstream connection failure. -/
def connectErrorMsg : String :=
  "Gateway Timeout - Unable to connect to upstream service"

/-- The 502 detail on any other forwarding failure. -/
def badGatewayMsg : String := "Bad Gateway"

/-- Embedding of forward_request: build the outbound request, consult
the upstream behaviour, relay a received response with sanitized headers
and unchanged status and body, and map transport failures to 504 on a
timeout, 504 on a connection failure and 502 on anything else. -/
def forward_request (env : Env) (req : IncomingRequest)
    (upstream : OutboundRequest → UpstreamBehavior) : ForwardResult :=
  match upstream (build_outbound env req) with
  | .responds status headers body =>
    .response ⟨status, sanitizeHeaders headers, body⟩
  | .timeout => .httpError 504 timeoutMsg
  | .connectError => .httpError 504 connectErrorMsg
  | .otherError _ => .httpError 502 badGatewayMsg

/-- The observable steps of one dispatched request. -/
inductive Event where
  | paramValidation : Event
  | bodyValidation : Event
  | upstreamCall : Event
deriving Repr, DecidableEq

/-- Result of the registered endpoint for one request: a relayed or
locally produced response, a client error from a raised HTTPException,
or an internal error from an uncaught KeyError. -/
inductive EndpointResult where
  | response : GatewayResponse → EndpointResult
  | clientError : Nat → String → EndpointResult
  | internalError : String → EndpointResult
deriving Repr, DecidableEq

/-- Embedding of the registered endpoint closure: validate parameters,
then validate the body, then forward; a raise aborts the remaining
steps. The returned trace lists the steps that ran, in order. -/
def endpoint (parseJson : List Nat → Option Json)
    (schemaCheck : Json → Json → Option String) (env : Env)
    (upstream : OutboundRequest → UpstreamBehavior)
    (req : IncomingRequest) (opDef : Operation) :
    EndpointResult × List Event :=
  match validate_parameters req.queryParams opDef with
  | .keyError k => (.internalError k, [.paramValidation])
  | .httpError s d => (.clientError s d, [.paramValidation])
  | .ok _ =>
    match validate_request_body parseJson schemaCheck req opDef with
    | .keyError k => (.internalError k, [.paramValidation, .bodyValidation])
    | .httpError s d => (.clientError s d, [.paramValidation, .bodyValidation])
    | .ok _ =>
      match forward_request env req upstream with
      | .response r =>
        (.response r, [.paramValidation, .bodyValidation, .upstreamCall])
      | .httpError s d =>
        (.clientError s d, [.paramValidation, .bodyValidation, .upstreamCall])

/-- Claim C4: the dispatch pipeline is ordered and short-circuiting:
a parameter validation failure returns its status and detail at once
with only the parameter step in the trace (no upstream call), a body
validation failure likewise after the two validation steps, an upstream
call in the trace implies both validations succeeded, and every trace is
one of the three ordered prefixes parameter, parameter-body,
parameter-body-upstream. -/
theorem c4_endpoint_pipeline (parseJson : List Nat → Option Json)
    (schemaCheck : Json → Json → Option String) (env : Env)
    (upstream : OutboundRequest → UpstreamBehavior)
    (req : IncomingRequest) (opDef : Operation) :
    (∀ s d, validate_parameters req.queryParams opDef = .httpError s d →
      endpoint parseJson schemaCheck env upstream req opDef =
        (.clientError s d, [.paramValidation]) ∧
      Event.upstreamCall ∉
        (endpoint parseJson schemaCheck env upstream req opDef).2) ∧
    (∀ s d, validate_parameters req.queryParams opDef = .ok () →
      validate_request_body parseJson schemaCheck req opDef =
        .httpError s d →
      endpoint parseJson schemaCheck env upstream req opDef =
        (.clientError s d, [.paramValidation, .bodyValidation]) ∧
      Event.upstreamCall ∉
        (endpoint parseJson schemaCheck env upstream req opDef).2) ∧
    (Event.upstreamCall ∈
        (endpoint parseJson schemaCheck env upstream req opDef).2 →
      validate_parameters req.queryParams opDef = .ok () ∧
      validate_request_body parseJson schemaCheck req opDef = .ok ()) ∧
    ((endpoint parseJson schemaCheck env upstream req opDef).2 =
        [.paramValidation] ∨
     (endpoint parseJson schemaCheck env upstream req opDef).2 =
        [.paramValidation, .bodyValidation] ∨
     (endpoint parseJson schemaCheck env upstream req opDef).2 =
        [.paramValidation, .bodyValidation, .upstreamCall]) := by
  refine ⟨?_, ?_, ?_, ?_⟩
  · intro s d h
    refine ⟨by simp [endpoint, h], ?_⟩
    simp [endpoint, h]
  · intro s d h1 h2
    refine ⟨by simp [endpoint, h1, h2], ?_⟩
    simp [endpoint, h1, h2]
  · intro hmem
    cases h1 : validate_parameters req.queryParams opDef with
    | ok a =>
      cases a
      cases h2 : validate_request_body parseJson schemaCheck req opDef with
      | ok b =>
        cases b
        exact ⟨rfl, rfl⟩
      | httpError s d => simp [endpoint, h1, h2] at hmem
      | keyError k => simp [endpoint, h1, h2] at hmem
    | httpError s d => simp [endpoint, h1] at hmem
    | keyError k => simp [endpoint, h1] at hmem
  · cases h1 : validate_parameters req.queryParams opDef with
    | httpError s d =>
      left
      simp [endpoint, h1]
    | keyError k =>
      left
      simp [endpoint, h1]
    | ok a =>
      cases a
      cases h2 : validate_request_body parseJson schemaCheck req opDef with
      | httpError s d =>
        right; left
        simp [endpoint, h1, h2]
      | keyError k =>
        right; left
        simp [endpoint, h1, h2]
      | ok b =>
        cases b
        right; right
        cases h3 : forward_request env req upstream with
        | response r => simp [endpoint, h1, h2, h3]
        | httpError s d => simp [endpoint, h1, h2, h3]

/-- Witness for claim C4 at a concrete input: a request missing the
required query parameter is answered locally with 400 and only the
parameter validation step runs. -/
theorem c4_endpoint_pipeline_witness :
    endpoint (fun _ => none) (fun _ _ => none) [] (fun _ => .timeout)
        ⟨"GET", "/x", "", [], [], []⟩
        ⟨some [⟨"query", "q", some true, some ⟨none⟩⟩], none⟩ =
      (.clientError 400 (missingParamMsg "q"), [.paramValidation]) :=
  ((c4_endpoint_pipeline (fun _ => none) (fun _ _ => none) []
      (fun _ => .timeout) ⟨"GET", "/x", "", [], [], []⟩
      ⟨some [⟨"query", "q", some true, some ⟨none⟩⟩], none⟩).1
    400 (missingParamMsg "q") rfl).1

/-- Claim C5: forward_request maps an upstream timeout to 504, a
connection failure to 504, any other transport failure to 502, and
relays any actually received response, whatever its status, with its
status and body unchanged and its headers sanitized. -/
theorem c5_forward_failure_mapping (env : Env) (req : IncomingRequest) :
    forward_request env req (fun _ => .timeout) =
      .httpError 504 timeoutMsg ∧
    forward_request env req (fun _ => .connectError) =
      .httpError 504 connectErrorMsg ∧
    (∀ m, forward_request env req (fun _ => .otherError m) =
      .httpError 502 badGatewayMsg) ∧
    (∀ status headers body upstream,
      upstream (build_outbound env req) = .responds status headers body →
      forward_request env req upstream =
        .response ⟨status, sanitizeHeaders headers, body⟩) := by
  refine ⟨rfl, rfl, fun m => rfl, ?_⟩
  intro status headers body upstream h
  simp [forward_request, h]

/-- Witness for claim C5 at a concrete input: an upstream 500 response
is relayed as a 500 response, not mapped to a gateway error. -/
theorem c5_forward_failure_mapping_witness :
    forward_request [] ⟨"GET", "/a", "", [], [], []⟩
        (fun _ => .responds 500 [] [0]) = .response ⟨500, [], [0]⟩ :=
  (c5_forward_failure_mapping [] ⟨"GET", "/a", "", [], [], []⟩).2.2.2
    500 [] [0] (fun _ => .responds 500 [] [0]) rfl

/-- Claim C6: the outbound request uses the upstream base URL
concatenated with the request path, plus the query string when present;
copies every inbound header except host, case-insensitively; and keeps
the original method and raw body, with a 30 second timeout and redirect
following. -/
theorem c6_forward_builds_outbound (env : Env) (req : IncomingRequest) :
    ((req.queryString = "" →
        (build_outbound env req).url = upstreamBaseUrl env ++ req.path) ∧
     (req.queryString ≠ "" →
        (build_outbound env req).url =
          upstreamBaseUrl env ++ req.path ++ "?" ++ req.queryString)) ∧
    (∀ k v, (k, v) ∈ (build_outbound env req).headers ↔
      (k, v) ∈ req.headers ∧ strLower k ≠ "host") ∧
    (build_outbound env req).method = req.method ∧
    (build_outbound env req).body = req.body ∧
    (build_outbound env req).timeoutSeconds = 30 ∧
    (build_outbound env req).followRedirects = true := by
  refine ⟨⟨?_, ?_⟩, ?_, rfl, rfl, rfl, rfl⟩
  · intro h
    simp [build_outbound, buildFullUrl, h]
  · intro h
    have h2 : (req.queryString == "") = false := beq_eq_false_iff_ne.mpr h
    simp [build_outbound, buildFullUrl, h2]
  · intro k v
    simp [build_outbound, outboundHeaders, List.mem_filter]

/-- Witness for claim C6 at a concrete input: with no query string the
outbound URL is the base URL plus the path. -/
theorem c6_forward_builds_outbound_witness :
    (build_outbound []
        ⟨"GET", "/items", "", [], [("Host", "h"), ("x", "1")], []⟩).url =
      upstreamBaseUrl [] ++ "/items" :=
  (c6_forward_builds_outbound []
    ⟨"GET", "/items", "", [], [("Host", "h"), ("x", "1")], []⟩).1.1 rfl

theorem dictSet_mem (d : List (String × String)) (k v : String) :
    (k, v) ∈ dictSet d k v := by
  unfold dictSet
  by_cases h : (d.find? (fun p => p.1 == k)).isSome = true
  · rw [if_pos h]
    obtain ⟨p, hfind⟩ := Option.isSome_iff_exists.mp h
    have hp := List.find?_some hfind
    have hmem := List.mem_of_find?_eq_some hfind
    exact List.mem_map.mpr ⟨p, hmem, by simp [hp]⟩
  · rw [if_neg h]
    exact List.mem_append_right _ (List.mem_singleton.mpr rfl)

/-- Claim C7: the header filter removes exactly the entries whose
lower-cased key is server, transfer-encoding, content-encoding or
content-length and keeps every other entry; and when the upstream
response carries a content type, the sanitized headers still carry that
content type value under the literal content-type key; without one, the
sanitization is exactly the filter. -/
theorem c7_sanitize_headers (hs : List (String × String)) :
    (∀ k v, (k, v) ∈ filter_headers hs ↔
      (k, v) ∈ hs ∧ excludedHeaders.contains (strLower k) = false) ∧
    (∀ v, headersGetCI hs "content-type" = some v →
      ("content-type", v) ∈ sanitizeHeaders hs) ∧
    (headersGetCI hs "content-type" = none →
      sanitizeHeaders hs = filter_headers hs) ∧
    excludedHeaders =
      ["server", "transfer-encoding", "content-encoding",
        "content-length"] := by
  refine ⟨?_, ?_, ?_, rfl⟩
  · intro k v
    simp [filter_headers, List.mem_filter]
  · intro v h
    rw [sanitizeHeaders]
    rw [h]
    exact dictSet_mem _ "content-type" v
  · intro h
    rw [sanitizeHeaders, h]

/-- Witness for claim C7 at a concrete input: a chunked transfer
encoding header is dropped while the content type survives. -/
theorem c7_sanitize_headers_witness :
    ("content-type", "application/json") ∈
      sanitizeHeaders
        [("transfer-encoding", "chunked"),
         ("content-type", "application/json")] :=
  (c7_sanitize_headers
      [("transfer-encoding", "chunked"),
       ("content-type", "application/json")]).2.1 "application/json" rfl

/-- Why specification loading failed: missing file, JSON decode failure,
or OpenAPI meta-schema validation failure. -/
inductive LoadError where
  | fileNotFound : LoadError
  | jsonDecodeError : LoadError
  | validationError : String → LoadError
deriving Repr, DecidableEq

/-- Embedding of load_openapi_spec over a file content (none when the
file is missing), a JSON parse oracle (none on a decode failure) and the
OpenAPI meta-schema validator oracle (some message on failure): every
failure is logged and re-raised, success returns the parsed document. -/
def load_openapi_spec (fileContent : Option String)
    (parse : String → Option Json) (specValid : Json → Option String) :
    Except LoadError Json :=
  match fileContent with
  | none => .error .fileNotFound
  | some text =>
    match parse text with
    | none => .error .jsonDecodeError
    | some spec =>
      match specValid spec with
      | some msg => .error (.validationError msg)
      | none => .ok spec

/-- The default specification file location. -/
def defaultSpecPath : String := "openapi.json"

/-- Embedding of startup_event: resolve the specification location from
the environment with its default and load the specification; a load
failure propagates and aborts startup. -/
def startup_event (env : Env) (fs : String → Option String)
    (parse : String → Option Json) (specValid : Json → Option String) :
    Except LoadError Json :=
  load_openapi_spec (fs (os_getenv env "OPENAPI_SPEC_PATH" defaultSpecPath))
    parse specValid

/-- Claim C8: specification loading fails when the file is missing, the
content does not parse as JSON, or the document fails meta-schema
validation; on success the parsed document is returned unchanged; and
startup fails exactly when loading the resolved file fails, with no
degraded mode. -/
theorem c8_spec_loading (fileContent : Option String)
    (parse : String → Option Json) (specValid : Json → Option String) :
    (fileContent = none →
      load_openapi_spec fileContent parse specValid =
        .error .fileNotFound) ∧
    (∀ text, fileContent = some text → parse text = none →
      load_openapi_spec fileContent parse specValid =
        .error .jsonDecodeError) ∧
    (∀ text spec m, fileContent = some text → parse text = some spec →
      specValid spec = some m →
      load_openapi_spec fileContent parse specValid =
        .error (.validationError m)) ∧
    (∀ text spec, fileContent = some text → parse text = some spec →
      specValid spec = none →
      load_openapi_spec fileContent parse specValid = .ok spec) ∧
    (∀ env fs e, startup_event env fs parse specValid = .error e ↔
      load_openapi_spec
          (fs (os_getenv env "OPENAPI_SPEC_PATH" defaultSpecPath))
          parse specValid = .error e) := by
  refine ⟨?_, ?_, ?_, ?_, ?_⟩
  · intro h
    simp [load_openapi_spec, h]
  · intro text h hp
    simp [load_openapi_spec, h, hp]
  · intro text spec m h hp hv
    simp [load_openapi_spec, h, hp, hv]
  · intro text spec h hp hv
    simp [load_openapi_spec, h, hp, hv]
  · intro env fs e
    rw [startup_event]

/-- Witness for claim C8 at a concrete input: a missing specification
file makes loading fail. -/
theorem c8_spec_loading_witness :
    load_openapi_spec none (fun _ => none) (fun _ => none) =
      .error .fileNotFound :=
  (c8_spec_loading none (fun _ => none) (fun _ => none)).1 rfl

/-- Claim C9: an environment without the specification path variable
resolves the documented default location openapi.json, an environment
without the upstream URL variable resolves the documented default
upstream base URL, neither absence is itself fatal (startup succeeds
whenever loading the default location succeeds), and startup succeeds
exactly when specification loading succeeds. -/
theorem c9_config_defaults (env : Env) (fs : String → Option String)
    (parse : String → Option Json) (specValid : Json → Option String) :
    (dictLookup env "OPENAPI_SPEC_PATH" = none →
      os_getenv env "OPENAPI_SPEC_PATH" defaultSpecPath = "openapi.json" ∧
      startup_event env fs parse specValid =
        load_openapi_spec (fs "openapi.json") parse specValid) ∧
    (dictLookup env "UPSTREAM_SERVER_URL" = none →
      upstreamBaseUrl env = "https://example.com/api") ∧
    (dictLookup env "OPENAPI_SPEC_PATH" = none →
      ∀ spec, load_openapi_spec (fs "openapi.json") parse specValid =
          .ok spec →
        startup_event env fs parse specValid = .ok spec) ∧
    (∀ spec, startup_event env fs parse specValid = .ok spec ↔
      load_openapi_spec
          (fs (os_getenv env "OPENAPI_SPEC_PATH" defaultSpecPath))
          parse specValid = .ok spec) := by
  have hpath : dictLookup env "OPENAPI_SPEC_PATH" = none →
      os_getenv env "OPENAPI_SPEC_PATH" defaultSpecPath = "openapi.json" := by
    intro h
    rw [os_getenv, h]
    rfl
  refine ⟨?_, ?_, ?_, ?_⟩
  · intro h
    refine ⟨hpath h, ?_⟩
    rw [startup_event, hpath h]
  · intro h
    rw [upstreamBaseUrl, os_getenv, h]
    rfl
  · intro h spec hload
    rw [startup_event, hpath h]
    exact hload
  · intro spec
    rw [startup_event]

/-- Witness for claim C9 at a concrete input: the empty environment
resolves the default upstream base URL. -/
theorem c9_config_defaults_witness :
    upstreamBaseUrl [] = "https://example.com/api" :=
  (c9_config_defaults [] (fun _ => none) (fun _ => none)
    (fun _ => none)).2.1 rfl

end OpenapiGateway
